import Mathlib

/-!
Shallow embedding of the `libelf` crate (src/lib.rs, src/endian.rs,
src/header/mod.rs, src/header/ident.rs) and proofs about the claims of its
specification.

Byte buffers are modelled as `List Nat`; every multi-byte value is assembled
with an explicit `% 256` per byte, so the model agrees with the Rust `u8`
semantics on well-formed buffers and stays total on all inputs.  Fallible Rust
code returns `Outcome`, whose `abort` constructor models a Rust panic (from
`unwrap`, out-of-range slice indexing, `copy_from_slice` length mismatch or an
underflowing `usize` subtraction) and whose `ub` constructor models undefined
behaviour (`mem::transmute` of an out-of-range enum discriminant).
-/

namespace Libelf

/-- ElfClass from src/header/ident.rs: discriminants 0, 1, 2. -/
inductive ElfClass where
  | Invalid
  | Class32
  | Class64
deriving DecidableEq

/-- ElfEndian from src/header/ident.rs: discriminants 0, 1, 2. -/
inductive ElfEndian where
  | Invalid
  | Little
  | Big
deriving DecidableEq

/-- ElfVersion from src/header/ident.rs: discriminants 0, 1. -/
inductive ElfVersion where
  | Invalid
  | Current
deriving DecidableEq

/-- ElfOsABI from src/header/ident.rs: discriminants 0x00-0x03 and 0x06-0x12. -/
inductive ElfOsABI where
  | Unspecified
  | HP_UX
  | NetBSD
  | GNU
  | Solaris
  | AIX
  | Irix
  | FreeBSD
  | Tru64
  | Modesto
  | OpenBSD
  | OpenVMS
  | NSK
  | AROS
  | FenixOS
  | CloudABI
  | OpenVOX
deriving DecidableEq

/-- ElfIdent from src/header/ident.rs; `class` is a Lean keyword, hence `class_`. -/
structure ElfIdent where
  class_ : ElfClass
  endian : ElfEndian
  version : ElfVersion
  abi : ElfOsABI
  abi_version : Nat
deriving DecidableEq

/-- Error from src/lib.rs.  The `IO` variant is `std`-feature gated and out of
scope here; note that the enum has no `InvalidEndian` variant. -/
inductive Error where
  | InvalidMagic
  | NotEnoughBytes : Nat → Error
  | InvalidClass
deriving DecidableEq

/-- Result of running a piece of the Rust code: a returned value, a returned
`Err`, a panic (`abort`), or undefined behaviour (`ub`). -/
inductive Outcome (α : Type) where
  | ok : α → Outcome α
  | err : Error → Outcome α
  | abort : Outcome α
  | ub : Outcome α
deriving DecidableEq

/-- Sequencing of Rust statements: `Err` returns, panics and UB all cut the
computation short. -/
def Outcome.bind {α β : Type} : Outcome α → (α → Outcome β) → Outcome β
  | .ok a, f => f a
  | .err e, _ => .err e
  | .abort, _ => .abort
  | .ub, _ => .ub

/-- Little-endian value of a byte list (`from_le_bytes`). -/
def leVal : List Nat → Nat
  | [] => 0
  | b :: rest => b % 256 + 256 * leVal rest

/-- Big-endian value of a byte list (`from_be_bytes`). -/
def beVal : List Nat → Nat
  | [] => 0
  | b :: rest => (b % 256) * 256 ^ rest.length + beVal rest

/-- The `width` bytes of `slice` starting at `offset`. -/
def window (slice : List Nat) (offset width : Nat) : List Nat :=
  (slice.drop offset).take width

/-- Value of a byte list in a declared byte order. -/
def endianVal : ElfEndian → List Nat → Nat
  | .Little, l => leVal l
  | .Big, l => beVal l
  | .Invalid, _ => 0

/-- IntoArray::to_array from src/endian.rs: `copy_from_slice` into a
`[T; LENGTH]` array panics unless the source slice length equals LENGTH. -/
def to_array (LENGTH : Nat) (l : List Nat) : Outcome (List Nat) :=
  if l.length = LENGTH then .ok l else .abort

/-- EndianReader::read_with_endian from src/endian.rs, literally: it takes the
inclusive slice `slice[offset ..= offset + size_of::<Self>()]` (which panics
when `offset + width` is not in bounds, and otherwise yields `width + 1` bytes)
and feeds it to `to_array::<width>`; an `Invalid` endian yields `None`. -/
def read_with_endian (width : Nat) (slice : List Nat) (endian : ElfEndian)
    (offset : Nat) : Outcome (Option Nat) :=
  if offset + width + 1 ≤ slice.length then
    match endian with
    | ElfEndian.Big =>
        Outcome.bind (to_array width (window slice offset (width + 1))) fun arr =>
          Outcome.ok (some (beVal arr))
    | ElfEndian.Little =>
        Outcome.bind (to_array width (window slice offset (width + 1))) fun arr =>
          Outcome.ok (some (leVal arr))
    | ElfEndian.Invalid => Outcome.ok none
  else Outcome.abort

/-- Modelled from the spec: section 4.2 EndianReader.  The crate's own
`read_with_endian` takes `offset : Option<usize>` while every call site in
src/header/mod.rs passes `Some(&mut offset)` and relies on the cursor
advancing, so src/endian.rs does not typecheck against its callers (and its
inclusive slice bound contradicts the crate's passing test suite).  The
cursor-advancing exact-width reader required by the spec and by every call
site is used as the semantics of the decoders: it reads `width` bytes at
`offset` in the declared byte order, returns the value together with the
advanced cursor, and yields `none` for the `Invalid` byte order or when fewer
than `width` bytes remain. -/
def readEndian (width : Nat) (slice : List Nat) (endian : ElfEndian)
    (offset : Nat) : Option (Nat × Nat) :=
  match endian with
  | ElfEndian.Invalid => none
  | e =>
      if offset + width ≤ slice.length then
        some (endianVal e (window slice offset width), offset + width)
      else none

/-- A call site `ident.endian.read::<T>(slice, Some(&mut offset)).unwrap()`:
the `None` returned for an invalid byte order or an out-of-range read is
unwrapped, i.e. the program panics. -/
def readUnwrap (width : Nat) (slice : List Nat) (endian : ElfEndian)
    (offset : Nat) : Outcome (Nat × Nat) :=
  match readEndian width slice endian offset with
  | none => Outcome.abort
  | some p => Outcome.ok p

/-- The read_class_dependent! macro from src/header/mod.rs lines 8-16. -/
def read_class_dependent (ident : ElfIdent) (slice : List Nat) (offset : Nat) :
    Outcome (Nat × Nat) :=
  match ident.class_ with
  | ElfClass.Invalid => Outcome.err Error.InvalidClass
  | ElfClass.Class32 => readUnwrap 4 slice ident.endian offset
  | ElfClass.Class64 => readUnwrap 8 slice ident.endian offset

/-- mem::transmute of one byte into ElfClass: discriminants 0, 1, 2; any other
byte is undefined behaviour. -/
def classOfByte : Nat → Option ElfClass
  | 0 => some ElfClass.Invalid
  | 1 => some ElfClass.Class32
  | 2 => some ElfClass.Class64
  | _ => none

/-- mem::transmute of one byte into ElfEndian. -/
def endianOfByte : Nat → Option ElfEndian
  | 0 => some ElfEndian.Invalid
  | 1 => some ElfEndian.Little
  | 2 => some ElfEndian.Big
  | _ => none

/-- mem::transmute of one byte into ElfVersion. -/
def versionOfByte : Nat → Option ElfVersion
  | 0 => some ElfVersion.Invalid
  | 1 => some ElfVersion.Current
  | _ => none

/-- mem::transmute of one byte into ElfOsABI. -/
def abiOfByte : Nat → Option ElfOsABI
  | 0x00 => some ElfOsABI.Unspecified
  | 0x01 => some ElfOsABI.HP_UX
  | 0x02 => some ElfOsABI.NetBSD
  | 0x03 => some ElfOsABI.GNU
  | 0x06 => some ElfOsABI.Solaris
  | 0x07 => some ElfOsABI.AIX
  | 0x08 => some ElfOsABI.Irix
  | 0x09 => some ElfOsABI.FreeBSD
  | 0x0A => some ElfOsABI.Tru64
  | 0x0B => some ElfOsABI.Modesto
  | 0x0C => some ElfOsABI.OpenBSD
  | 0x0D => some ElfOsABI.OpenVMS
  | 0x0E => some ElfOsABI.NSK
  | 0x0F => some ElfOsABI.AROS
  | 0x10 => some ElfOsABI.FenixOS
  | 0x11 => some ElfOsABI.CloudABI
  | 0x12 => some ElfOsABI.OpenVOX
  | _ => none

/-- The `mem::transmute::<[u8; IDENT_SIZE], ElfIdent>` in FileHeader::read
(src/header/mod.rs lines 166-170): the five ident bytes are reinterpreted
wholesale into the record, with no validation; a discriminant outside the
enum's range is undefined behaviour, not an error. -/
def transmuteIdent (b0 b1 b2 b3 b4 : Nat) : Option ElfIdent :=
  match classOfByte (b0 % 256), endianOfByte (b1 % 256),
      versionOfByte (b2 % 256), abiOfByte (b3 % 256) with
  | some c, some e, some v, some a => some ⟨c, e, v, a, b4 % 256⟩
  | _, _, _, _ => none

/-- FileType from src/header/mod.rs and its From<u16> impl. -/
inductive FileType where
  | None
  | Relocatable
  | Executable
  | SharedObject
  | Core
  | Unknown : Nat → FileType
deriving DecidableEq

def FileType.fromU16 : Nat → FileType
  | 0 => FileType.None
  | 1 => FileType.Relocatable
  | 2 => FileType.Executable
  | 3 => FileType.SharedObject
  | 4 => FileType.Core
  | v => FileType.Unknown v

/-- TargetMachine from src/header/mod.rs and its From<u16> impl
(unrecognized values fall back to None). -/
inductive TargetMachine where
  | None
  | X86_64
  | ARM
  | ARM64
  | RISCV
deriving DecidableEq

def TargetMachine.fromU16 (v : Nat) : TargetMachine :=
  if v = 62 then TargetMachine.X86_64
  else if v = 40 then TargetMachine.ARM
  else if v = 183 then TargetMachine.ARM64
  else if v = 243 then TargetMachine.RISCV
  else TargetMachine.None

/-- FileHeader from src/header/mod.rs. -/
structure FileHeader where
  ident : ElfIdent
  ty : FileType
  machine : TargetMachine
  version : Nat
  entry_address : Option Nat
  program_header_offset : Nat
  section_header_offset : Nat
  flags : Nat
  file_header_size : Nat
  program_header_size : Nat
  program_header_count : Nat
  section_header_size : Nat
  section_header_count : Nat
  string_table_index : Nat
deriving DecidableEq

/-- `mem::size_of::<ElfIdent>()`: five one-byte fields, `repr(C)`. -/
def IDENT_SIZE : Nat := 5

/-- FileHeader::read from src/header/mod.rs lines 162-215.  The five ident
bytes at `offset` are transmuted wholesale (`slice.get(..).unwrap()` panics
when they are out of range), the cursor is advanced by 12, and the remaining
fields are read sequentially, each `.unwrap()`ed. -/
def FileHeader.read (slice : List Nat) (offset : Nat) : Outcome FileHeader :=
  if offset + IDENT_SIZE ≤ slice.length then
    match transmuteIdent (slice.getD offset 0) (slice.getD (offset + 1) 0)
        (slice.getD (offset + 2) 0) (slice.getD (offset + 3) 0)
        (slice.getD (offset + 4) 0) with
    | none => Outcome.ub
    | some ident =>
        Outcome.bind (readUnwrap 2 slice ident.endian (offset + 12)) fun pty =>
        Outcome.bind (readUnwrap 2 slice ident.endian pty.2) fun pmach =>
        Outcome.bind (readUnwrap 4 slice ident.endian pmach.2) fun pver =>
        Outcome.bind (read_class_dependent ident slice pver.2) fun pentry =>
        Outcome.bind (read_class_dependent ident slice pentry.2) fun pphoff =>
        Outcome.bind (read_class_dependent ident slice pphoff.2) fun pshoff =>
        Outcome.bind (readUnwrap 4 slice ident.endian pshoff.2) fun pflags =>
        Outcome.bind (readUnwrap 2 slice ident.endian pflags.2) fun pfhs =>
        Outcome.bind (readUnwrap 2 slice ident.endian pfhs.2) fun pphs =>
        Outcome.bind (readUnwrap 2 slice ident.endian pphs.2) fun pphc =>
        Outcome.bind (readUnwrap 2 slice ident.endian pphc.2) fun pshs =>
        Outcome.bind (readUnwrap 2 slice ident.endian pshs.2) fun pshc =>
        Outcome.bind (readUnwrap 2 slice ident.endian pshc.2) fun pstr =>
        Outcome.ok {
          ident := ident
          ty := FileType.fromU16 pty.1
          machine := TargetMachine.fromU16 pmach.1
          version := pver.1
          entry_address := if pentry.1 = 0 then none else some pentry.1
          program_header_offset := pphoff.1
          section_header_offset := pshoff.1
          flags := pflags.1
          file_header_size := pfhs.1
          program_header_size := pphs.1
          program_header_count := pphc.1
          section_header_size := pshs.1
          section_header_count := pshc.1
          string_table_index := pstr.1 }
  else Outcome.abort

/-- SegmentType from src/header/mod.rs and its From<u32> impl. -/
inductive SegmentType where
  | Null
  | Load
  | Dynamic
  | Interp
  | Note
  | ShLib
  | Phdr
  | TLS
  | GNUProperty
  | GNUEhFrame
  | GNUStack
  | GNURelro
  | Unknown : Nat → SegmentType
deriving DecidableEq

def SegmentType.fromU32 (v : Nat) : SegmentType :=
  if v = 0x00000000 then SegmentType.Null
  else if v = 0x00000001 then SegmentType.Load
  else if v = 0x00000002 then SegmentType.Dynamic
  else if v = 0x00000003 then SegmentType.Interp
  else if v = 0x00000004 then SegmentType.Note
  else if v = 0x00000005 then SegmentType.ShLib
  else if v = 0x00000006 then SegmentType.Phdr
  else if v = 0x00000007 then SegmentType.TLS
  else if v = 0x6474E553 then SegmentType.GNUProperty
  else if v = 0x6474E550 then SegmentType.GNUEhFrame
  else if v = 0x6474E551 then SegmentType.GNUStack
  else if v = 0x6474E552 then SegmentType.GNURelro
  else SegmentType.Unknown v

/-- SegmentFlags bit constants from src/header/mod.rs lines 310-324.  The
bitflags struct wraps a raw u32; `from_bits_retain` keeps every bit, so the
flags field is modelled as the raw word. -/
def SegmentFlags.EXECUTABLE : Nat := 0x1

def SegmentFlags.WRITABLE : Nat := 0x2

def SegmentFlags.READABLE : Nat := 0x4

/-- ProgramHeader from src/header/mod.rs; `flags` holds the raw u32 produced
by `SegmentFlags::from_bits_retain`. -/
structure ProgramHeader where
  ty : SegmentType
  flags : Nat
  offset : Nat
  virtual_address : Nat
  physical_address : Nat
  file_size : Nat
  memory_size : Nat
  alignment : Nat
deriving DecidableEq

/-- ProgramHeader::read from src/header/mod.rs lines 393-422.  The structure
starts as `Self::default()` (flags raw word 0); the 32-bit flags word is read
right after the segment type when the class is Class64, and right before the
alignment (after offset, virtual address, physical address, file size and
memory size) when the class is Class32. -/
def ProgramHeader.read (ident : ElfIdent) (slice : List Nat) (offset : Nat) :
    Outcome ProgramHeader :=
  Outcome.bind (readUnwrap 4 slice ident.endian offset) fun pty =>
  Outcome.bind
    (if ident.class_ = ElfClass.Class64 then
      readUnwrap 4 slice ident.endian pty.2
    else Outcome.ok (0, pty.2)) fun pf64 =>
  Outcome.bind (read_class_dependent ident slice pf64.2) fun poff =>
  Outcome.bind (read_class_dependent ident slice poff.2) fun pvaddr =>
  Outcome.bind (read_class_dependent ident slice pvaddr.2) fun ppaddr =>
  Outcome.bind (read_class_dependent ident slice ppaddr.2) fun pfsize =>
  Outcome.bind (read_class_dependent ident slice pfsize.2) fun pmsize =>
  Outcome.bind
    (if ident.class_ = ElfClass.Class32 then
      readUnwrap 4 slice ident.endian pmsize.2
    else Outcome.ok (pf64.1, pmsize.2)) fun pf32 =>
  Outcome.bind (read_class_dependent ident slice pf32.2) fun palign =>
  Outcome.ok {
    ty := SegmentType.fromU32 pty.1
    flags := pf32.1
    offset := poff.1
    virtual_address := pvaddr.1
    physical_address := ppaddr.1
    file_size := pfsize.1
    memory_size := pmsize.1
    alignment := palign.1 }

/-- SectionType from src/header/mod.rs and its From<u32> impl. -/
inductive SectionType where
  | Null
  | ProgBits
  | SymbolTable
  | StringTable
  | Rela
  | Hash
  | Dynamic
  | Note
  | NoBits
  | Rel
  | ShLib
  | DynamicSymbol
  | InitArray
  | FiniArray
  | PreInitArray
  | Group
  | SymbolTableIndex
  | Unknown : Nat → SectionType
deriving DecidableEq

def SectionType.fromU32 (v : Nat) : SectionType :=
  if v = 0 then SectionType.Null
  else if v = 1 then SectionType.ProgBits
  else if v = 2 then SectionType.SymbolTable
  else if v = 3 then SectionType.StringTable
  else if v = 4 then SectionType.Rela
  else if v = 5 then SectionType.Hash
  else if v = 6 then SectionType.Dynamic
  else if v = 7 then SectionType.Note
  else if v = 8 then SectionType.NoBits
  else if v = 9 then SectionType.Rel
  else if v = 10 then SectionType.ShLib
  else if v = 11 then SectionType.DynamicSymbol
  else if v = 14 then SectionType.InitArray
  else if v = 15 then SectionType.FiniArray
  else if v = 16 then SectionType.PreInitArray
  else if v = 17 then SectionType.Group
  else if v = 81 then SectionType.SymbolTableIndex
  else SectionType.Unknown v

/-- SectionHeader from src/header/mod.rs; `flags` holds the raw word produced
by `SectionFlags::from_bits_retain`. -/
structure SectionHeader where
  name : Nat
  ty : SectionType
  flags : Nat
  addr : Nat
  offset : Nat
  size : Nat
  link : Nat
  info : Nat
  addr_align : Nat
  entry_size : Nat
deriving DecidableEq

/-- SectionHeader::read from src/header/mod.rs lines 567-581. -/
def SectionHeader.read (ident : ElfIdent) (slice : List Nat) (offset : Nat) :
    Outcome SectionHeader :=
  Outcome.bind (readUnwrap 4 slice ident.endian offset) fun pname =>
  Outcome.bind (readUnwrap 4 slice ident.endian pname.2) fun pty =>
  Outcome.bind (read_class_dependent ident slice pty.2) fun pflags =>
  Outcome.bind (read_class_dependent ident slice pflags.2) fun paddr =>
  Outcome.bind (read_class_dependent ident slice paddr.2) fun poff =>
  Outcome.bind (read_class_dependent ident slice poff.2) fun psize =>
  Outcome.bind (readUnwrap 4 slice ident.endian psize.2) fun plink =>
  Outcome.bind (readUnwrap 4 slice ident.endian plink.2) fun pinfo =>
  Outcome.bind (read_class_dependent ident slice pinfo.2) fun palign =>
  Outcome.bind (read_class_dependent ident slice palign.2) fun pent =>
  Outcome.ok {
    name := pname.1
    ty := SectionType.fromU32 pty.1
    flags := pflags.1
    addr := paddr.1
    offset := poff.1
    size := psize.1
    link := plink.1
    info := pinfo.1
    addr_align := palign.1
    entry_size := pent.1 }

/-- The Elf struct from src/lib.rs lines 53-56: it holds the file header and
the optional program-header list, and nothing else — in particular no
section-header sequence. -/
structure Elf where
  header : FileHeader
  program_headers : Option (List ProgramHeader)
deriving DecidableEq

/-- Elf::MAGIC_BYTES. -/
def Elf.MAGIC_BYTES : List Nat := [0x7F, 0x45, 0x4C, 0x46]

/-- Elf::MIN_ELF_SIZE = size_of::<ElfIdent>(). -/
def Elf.MIN_ELF_SIZE : Nat := IDENT_SIZE

/-- Elf::elf_index from src/lib.rs lines 136-143, literally: the loop bound is
`bytes.len() - MAGIC_BYTES.len()` (exclusive), whose `usize` subtraction
underflows for buffers shorter than 4 bytes — an overflow panic in a debug
build, and an out-of-range `bytes[i..=(i+3)]` index in a release build, so a
panic either way, modelled as `abort`. -/
def Elf.elf_index (bytes : List Nat) : Outcome (Option Nat) :=
  if bytes.length < 4 then Outcome.abort
  else
    Outcome.ok ((List.range (bytes.length - 4)).find? fun i =>
      window bytes i 4 == Elf.MAGIC_BYTES)

/-- The program-header loop body of Elf::from_bytes (src/lib.rs lines 85-95):
for each loop index `i` it reads an entry at
`index - 4 + program_header_offset + (i * program_header_size)`, the `u16`
product wrapping modulo 2^16 before the `as usize` cast. -/
def Elf.readProgramHeaders (ident : ElfIdent) (bytes : List Nat)
    (index phoff phsize : Nat) : List Nat → Outcome (List ProgramHeader)
  | [] => Outcome.ok []
  | i :: rest =>
      Outcome.bind
        (ProgramHeader.read ident bytes (index - 4 + phoff + i * phsize % 65536))
        fun ph =>
      Outcome.bind (Elf.readProgramHeaders ident bytes index phoff phsize rest)
        fun phs =>
      Outcome.ok (ph :: phs)

/-- Elf::from_bytes from src/lib.rs lines 73-102.  After locating the magic it
performs the single length check `bytes.len() - index < MIN_ELF_SIZE`, reads
the file header, and — when `program_header_count > 0` — loops
`for i in 0..header.program_header_size` (the loop bound is the entry size,
not the entry count). -/
def Elf.from_bytes (bytes : List Nat) : Outcome Elf :=
  Outcome.bind (Elf.elf_index bytes) fun idxOpt =>
  match idxOpt with
  | none => Outcome.err Error.InvalidMagic
  | some i =>
      let index := i + 4
      if bytes.length - index < Elf.MIN_ELF_SIZE then
        Outcome.err (Error.NotEnoughBytes (bytes.length - index))
      else
        Outcome.bind (FileHeader.read bytes index) fun header =>
        if 0 < header.program_header_count then
          Outcome.bind
            (Elf.readProgramHeaders header.ident bytes index
              header.program_header_offset header.program_header_size
              (List.range header.program_header_size)) fun phs =>
          Outcome.ok { header := header, program_headers := some phs }
        else Outcome.ok { header := header, program_headers := none }

/-- Elf::file_header from src/lib.rs lines 147-149. -/
def Elf.file_header (e : Elf) : FileHeader := e.header

/-! Concrete buffers used to evaluate the code at particular inputs.  `B1` is
a minimal little-endian Class32 image: magic at offset 0, identification
block, and a 36-byte Class32 file header whose `program_header_size` is 0,
`program_header_count` is 1 and `section_header_count` is 1. -/

/-- A 52-byte buffer: magic, ident `[1, 1, 1, 0, 0]`, seven padding bytes,
then file type 2, machine 62, version 1, entry 0x1000, zero table offsets and
flags, header size 52, program-header size 0 and count 1, section-header size
40 and count 1, string-table index 0 (all little-endian). -/
def B1 : List Nat :=
  [0x7F, 0x45, 0x4C, 0x46,
   1, 1, 1, 0, 0,
   0, 0, 0, 0, 0, 0, 0,
   2, 0,
   62, 0,
   1, 0, 0, 0,
   0, 0x10, 0, 0,
   0, 0, 0, 0,
   0, 0, 0, 0,
   0, 0, 0, 0,
   52, 0,
   0, 0,
   1, 0,
   40, 0,
   1, 0,
   0, 0]

/-- The file header that `FileHeader.read B1 4` produces. -/
def hdrB1 : FileHeader :=
  { ident := ⟨ElfClass.Class32, ElfEndian.Little, ElfVersion.Current,
      ElfOsABI.Unspecified, 0⟩
    ty := FileType.Executable
    machine := TargetMachine.X86_64
    version := 1
    entry_address := some 0x1000
    program_header_offset := 0
    section_header_offset := 0
    flags := 0
    file_header_size := 52
    program_header_size := 0
    program_header_count := 1
    section_header_size := 40
    section_header_count := 1
    string_table_index := 0 }

/-! Basic lemmas about `Outcome`, the readers and the byte-value helpers. -/

theorem Outcome.ok_bind {α β : Type} (a : α) (f : α → Outcome β) :
    Outcome.bind (Outcome.ok a) f = f a := rfl

theorem Outcome.bind_eq_ok {α β : Type} {a : Outcome α} {f : α → Outcome β}
    {b : β} :
    Outcome.bind a f = Outcome.ok b ↔ ∃ x, a = Outcome.ok x ∧ f x = Outcome.ok b := by
  cases a <;> simp [Outcome.bind]

theorem window_length {slice : List Nat} {offset width : Nat}
    (h : offset + width ≤ slice.length) :
    (window slice offset width).length = width := by
  simp only [window, List.length_take, List.length_drop]
  omega

theorem leVal_lt (l : List Nat) : leVal l < 256 ^ l.length := by
  induction l with
  | nil => simp [leVal]
  | cons b rest ih =>
      have hb : b % 256 < 256 := Nat.mod_lt _ (by norm_num)
      simp only [leVal, List.length_cons, pow_succ]
      omega

theorem beVal_lt (l : List Nat) : beVal l < 256 ^ l.length := by
  induction l with
  | nil => simp [beVal]
  | cons b rest ih =>
      have hb : b % 256 ≤ 255 := by omega
      have h2 : (b % 256) * 256 ^ rest.length ≤ 255 * 256 ^ rest.length :=
        Nat.mul_le_mul_right _ hb
      simp only [beVal, List.length_cons, pow_succ]
      omega

theorem endianVal_lt (e : ElfEndian) (l : List Nat) :
    endianVal e l < 256 ^ l.length := by
  cases e with
  | Invalid =>
      simp only [endianVal]
      exact pow_pos (by norm_num) l.length
  | Little => exact leVal_lt l
  | Big => exact beVal_lt l

theorem readUnwrap_valid {endian : ElfEndian} (he : endian ≠ ElfEndian.Invalid)
    {width : Nat} {slice : List Nat} {offset : Nat}
    (hb : offset + width ≤ slice.length) :
    readUnwrap width slice endian offset =
      Outcome.ok (endianVal endian (window slice offset width), offset + width) := by
  cases endian with
  | Invalid => exact absurd rfl he
  | Little => simp [readUnwrap, readEndian, hb]
  | Big => simp [readUnwrap, readEndian, hb]

theorem readUnwrap_ok {width : Nat} {slice : List Nat} {endian : ElfEndian}
    {offset : Nat} {p : Nat × Nat}
    (h : readUnwrap width slice endian offset = Outcome.ok p) :
    endian ≠ ElfEndian.Invalid ∧ offset + width ≤ slice.length ∧
      p = (endianVal endian (window slice offset width), offset + width) := by
  by_cases hb : offset + width ≤ slice.length
  · cases endian with
    | Invalid => exact absurd h (by simp [readUnwrap, readEndian])
    | Little =>
        rw [readUnwrap_valid (by decide) hb] at h
        injection h with h2
        exact ⟨by decide, hb, h2.symm⟩
    | Big =>
        rw [readUnwrap_valid (by decide) hb] at h
        injection h with h2
        exact ⟨by decide, hb, h2.symm⟩
  · exfalso
    cases endian <;> simp [readUnwrap, readEndian, hb] at h

theorem read_class_dependent_ok_class {ident : ElfIdent} {slice : List Nat}
    {offset : Nat} {p : Nat × Nat}
    (h : read_class_dependent ident slice offset = Outcome.ok p) :
    ident.class_ ≠ ElfClass.Invalid := by
  intro hc
  unfold read_class_dependent at h
  rw [hc] at h
  simp at h

theorem FileHeader.read_ok_inv {slice : List Nat} {offset : Nat}
    {h : FileHeader} (hok : FileHeader.read slice offset = Outcome.ok h) :
    h.ident.class_ ≠ ElfClass.Invalid ∧
      h.ty = FileType.fromU16
        (endianVal h.ident.endian (window slice (offset + 12) 2)) := by
  unfold FileHeader.read at hok
  split at hok
  · split at hok
    · exact absurd hok (by simp)
    · rename_i ident hident
      simp only [Outcome.bind_eq_ok] at hok
      obtain ⟨pty, hty, pmach, hmach, pver, hver, pentry, hentry, pphoff,
        hphoff, pshoff, hshoff, pflags, hflags, pfhs, hfhs, pphs, hphs,
        pphc, hphc, pshs, hshs, pshc, hshc, pstr, hstr, hfin⟩ := hok
      injection hfin with hfin
      subst hfin
      refine ⟨read_class_dependent_ok_class hentry, ?_⟩
      obtain ⟨hne, hb, hp⟩ := readUnwrap_ok hty
      simp [hp]
  · exact absurd hok (by simp)

theorem Elf.from_bytes_ok_inv {bytes : List Nat} {e : Elf}
    (h : Elf.from_bytes bytes = Outcome.ok e) :
    ∃ i, Elf.elf_index bytes = Outcome.ok (some i) ∧
      FileHeader.read bytes (i + 4) = Outcome.ok e.header := by
  unfold Elf.from_bytes at h
  rw [Outcome.bind_eq_ok] at h
  obtain ⟨idxOpt, hidx, h⟩ := h
  cases idxOpt with
  | none => exact absurd h (by simp)
  | some i =>
      refine ⟨i, hidx, ?_⟩
      simp only [] at h
      split at h
      · exact absurd h (by simp)
      · rw [Outcome.bind_eq_ok] at h
        obtain ⟨hd, hfh, h⟩ := h
        split at h
        · rw [Outcome.bind_eq_ok] at h
          obtain ⟨phs, hphs, h⟩ := h
          injection h with h2
          rw [← h2]
          exact hfh
        · injection h with h2
          rw [← h2]
          exact hfh

/-! An `Outcome` whose only possible `Err` payload is `InvalidClass`.  Every
decoder below satisfies this: apart from panics, `Error::InvalidClass` is the
only error a header or table-entry read can return, so the
`NotEnoughBytes` gate in `Elf::from_bytes` is the sole length guard. -/

def OnlyInvalidClass {α : Type} (o : Outcome α) : Prop :=
  ∀ e, o = Outcome.err e → e = Error.InvalidClass

theorem onlyIC_ok {α : Type} (x : α) : OnlyInvalidClass (Outcome.ok x) :=
  fun _ h => Outcome.noConfusion h

theorem onlyIC_abort {α : Type} : OnlyInvalidClass (Outcome.abort : Outcome α) :=
  fun _ h => Outcome.noConfusion h

theorem onlyIC_ub {α : Type} : OnlyInvalidClass (Outcome.ub : Outcome α) :=
  fun _ h => Outcome.noConfusion h

theorem onlyIC_errIC {α : Type} :
    OnlyInvalidClass (Outcome.err Error.InvalidClass : Outcome α) := by
  intro e h
  injection h with h2
  exact h2.symm

theorem onlyIC_bind {α β : Type} {a : Outcome α} {f : α → Outcome β}
    (ha : OnlyInvalidClass a) (hf : ∀ x, OnlyInvalidClass (f x)) :
    OnlyInvalidClass (Outcome.bind a f) := by
  intro e h
  cases a with
  | ok x => exact hf x e (by simpa [Outcome.bind] using h)
  | err e2 => exact ha e (by simpa [Outcome.bind] using h)
  | abort => simp [Outcome.bind] at h
  | ub => simp [Outcome.bind] at h

theorem onlyIC_ite {α : Type} (c : Prop) [Decidable c] {a b : Outcome α}
    (hA : OnlyInvalidClass a) (hB : OnlyInvalidClass b) :
    OnlyInvalidClass (if c then a else b) := by
  split
  · exact hA
  · exact hB

theorem readUnwrap_onlyIC {width : Nat} {slice : List Nat} {endian : ElfEndian}
    {offset : Nat} : OnlyInvalidClass (readUnwrap width slice endian offset) := by
  unfold readUnwrap
  split
  · exact onlyIC_abort
  · exact onlyIC_ok _

theorem read_class_dependent_onlyIC {ident : ElfIdent} {slice : List Nat}
    {offset : Nat} : OnlyInvalidClass (read_class_dependent ident slice offset) := by
  unfold read_class_dependent
  split
  · exact onlyIC_errIC
  · exact readUnwrap_onlyIC
  · exact readUnwrap_onlyIC

theorem fileHeader_read_onlyIC {slice : List Nat} {offset : Nat} :
    OnlyInvalidClass (FileHeader.read slice offset) := by
  unfold FileHeader.read
  split
  · split
    · exact onlyIC_ub
    · exact onlyIC_bind readUnwrap_onlyIC fun pty =>
        onlyIC_bind readUnwrap_onlyIC fun pmach =>
        onlyIC_bind readUnwrap_onlyIC fun pver =>
        onlyIC_bind read_class_dependent_onlyIC fun pentry =>
        onlyIC_bind read_class_dependent_onlyIC fun pphoff =>
        onlyIC_bind read_class_dependent_onlyIC fun pshoff =>
        onlyIC_bind readUnwrap_onlyIC fun pflags =>
        onlyIC_bind readUnwrap_onlyIC fun pfhs =>
        onlyIC_bind readUnwrap_onlyIC fun pphs =>
        onlyIC_bind readUnwrap_onlyIC fun pphc =>
        onlyIC_bind readUnwrap_onlyIC fun pshs =>
        onlyIC_bind readUnwrap_onlyIC fun pshc =>
        onlyIC_bind readUnwrap_onlyIC fun pstr => onlyIC_ok _
  · exact onlyIC_abort

theorem programHeader_read_onlyIC {ident : ElfIdent} {slice : List Nat}
    {offset : Nat} : OnlyInvalidClass (ProgramHeader.read ident slice offset) := by
  unfold ProgramHeader.read
  exact onlyIC_bind readUnwrap_onlyIC fun pty =>
    onlyIC_bind (onlyIC_ite _ readUnwrap_onlyIC (onlyIC_ok _)) fun pf64 =>
    onlyIC_bind read_class_dependent_onlyIC fun poff =>
    onlyIC_bind read_class_dependent_onlyIC fun pvaddr =>
    onlyIC_bind read_class_dependent_onlyIC fun ppaddr =>
    onlyIC_bind read_class_dependent_onlyIC fun pfsize =>
    onlyIC_bind read_class_dependent_onlyIC fun pmsize =>
    onlyIC_bind (onlyIC_ite _ readUnwrap_onlyIC (onlyIC_ok _)) fun pf32 =>
    onlyIC_bind read_class_dependent_onlyIC fun palign => onlyIC_ok _

theorem Elf.readProgramHeaders_onlyIC {ident : ElfIdent} {bytes : List Nat}
    {index phoff phsize : Nat} : ∀ l : List Nat,
    OnlyInvalidClass (Elf.readProgramHeaders ident bytes index phoff phsize l)
  | [] => onlyIC_ok _
  | _ :: rest =>
      onlyIC_bind programHeader_read_onlyIC fun _ =>
        onlyIC_bind (Elf.readProgramHeaders_onlyIC rest) fun _ => onlyIC_ok _

theorem Elf.elf_index_cases (bytes : List Nat) :
    Elf.elf_index bytes = Outcome.abort ∨
      ∃ o, Elf.elf_index bytes = Outcome.ok o := by
  unfold Elf.elf_index
  split
  · exact Or.inl rfl
  · exact Or.inr ⟨_, rfl⟩

theorem read_class_dependent_invalid {ident : ElfIdent} {slice : List Nat}
    {offset : Nat} (hc : ident.class_ = ElfClass.Invalid) :
    read_class_dependent ident slice offset = Outcome.err Error.InvalidClass := by
  unfold read_class_dependent
  rw [hc]

theorem read_class_dependent_eval32 {ident : ElfIdent}
    (hc : ident.class_ = ElfClass.Class32) (he : ident.endian ≠ ElfEndian.Invalid)
    {slice : List Nat} {offset : Nat} (hb : offset + 4 ≤ slice.length) :
    read_class_dependent ident slice offset =
      Outcome.ok (endianVal ident.endian (window slice offset 4), offset + 4) := by
  unfold read_class_dependent
  rw [hc]
  exact readUnwrap_valid he hb

theorem read_class_dependent_eval64 {ident : ElfIdent}
    (hc : ident.class_ = ElfClass.Class64) (he : ident.endian ≠ ElfEndian.Invalid)
    {slice : List Nat} {offset : Nat} (hb : offset + 8 ≤ slice.length) :
    read_class_dependent ident slice offset =
      Outcome.ok (endianVal ident.endian (window slice offset 8), offset + 8) := by
  unfold read_class_dependent
  rw [hc]
  exact readUnwrap_valid he hb

theorem ProgramHeader.read_eval64 {ident : ElfIdent} {slice : List Nat}
    {off : Nat} (hc : ident.class_ = ElfClass.Class64)
    (he : ident.endian ≠ ElfEndian.Invalid) (hl : off + 56 ≤ slice.length) :
    ProgramHeader.read ident slice off = Outcome.ok
      { ty := SegmentType.fromU32 (endianVal ident.endian (window slice off 4))
        flags := endianVal ident.endian (window slice (off + 4) 4)
        offset := endianVal ident.endian (window slice (off + 8) 8)
        virtual_address := endianVal ident.endian (window slice (off + 16) 8)
        physical_address := endianVal ident.endian (window slice (off + 24) 8)
        file_size := endianVal ident.endian (window slice (off + 32) 8)
        memory_size := endianVal ident.endian (window slice (off + 40) 8)
        alignment := endianVal ident.endian (window slice (off + 48) 8) } := by
  simp only [ProgramHeader.read, hc,
    readUnwrap_valid he (show off + 4 ≤ slice.length by omega),
    readUnwrap_valid he (show off + 4 + 4 ≤ slice.length by omega),
    read_class_dependent_eval64 hc he (show off + 8 + 8 ≤ slice.length by omega),
    read_class_dependent_eval64 hc he (show off + 16 + 8 ≤ slice.length by omega),
    read_class_dependent_eval64 hc he (show off + 24 + 8 ≤ slice.length by omega),
    read_class_dependent_eval64 hc he (show off + 32 + 8 ≤ slice.length by omega),
    read_class_dependent_eval64 hc he (show off + 40 + 8 ≤ slice.length by omega),
    read_class_dependent_eval64 hc he (show off + 48 + 8 ≤ slice.length by omega),
    Outcome.ok_bind, Nat.add_assoc, Nat.reduceAdd, reduceCtorEq, if_true,
    if_false, eq_self_iff_true, ite_true, ite_false]

theorem ProgramHeader.read_eval32 {ident : ElfIdent} {slice : List Nat}
    {off : Nat} (hc : ident.class_ = ElfClass.Class32)
    (he : ident.endian ≠ ElfEndian.Invalid) (hl : off + 32 ≤ slice.length) :
    ProgramHeader.read ident slice off = Outcome.ok
      { ty := SegmentType.fromU32 (endianVal ident.endian (window slice off 4))
        flags := endianVal ident.endian (window slice (off + 24) 4)
        offset := endianVal ident.endian (window slice (off + 4) 4)
        virtual_address := endianVal ident.endian (window slice (off + 8) 4)
        physical_address := endianVal ident.endian (window slice (off + 12) 4)
        file_size := endianVal ident.endian (window slice (off + 16) 4)
        memory_size := endianVal ident.endian (window slice (off + 20) 4)
        alignment := endianVal ident.endian (window slice (off + 28) 4) } := by
  simp only [ProgramHeader.read, hc,
    readUnwrap_valid he (show off + 4 ≤ slice.length by omega),
    read_class_dependent_eval32 hc he (show off + 4 + 4 ≤ slice.length by omega),
    read_class_dependent_eval32 hc he (show off + 8 + 4 ≤ slice.length by omega),
    read_class_dependent_eval32 hc he (show off + 12 + 4 ≤ slice.length by omega),
    read_class_dependent_eval32 hc he (show off + 16 + 4 ≤ slice.length by omega),
    read_class_dependent_eval32 hc he (show off + 20 + 4 ≤ slice.length by omega),
    readUnwrap_valid he (show off + 24 + 4 ≤ slice.length by omega),
    read_class_dependent_eval32 hc he (show off + 28 + 4 ≤ slice.length by omega),
    Outcome.ok_bind, Nat.add_assoc, Nat.reduceAdd, reduceCtorEq, if_true,
    if_false, eq_self_iff_true, ite_true, ite_false]

/-! Further concrete inputs used by the claim theorems. -/

/-- A 9-byte buffer whose class byte (offset 4) is 3, outside the ElfClass
discriminants. -/
def B3 : List Nat := [0x7F, 0x45, 0x4C, 0x46, 3, 1, 1, 0, 0]

/-- A 24-byte buffer whose endian byte (offset 5) is 0, the `Invalid`
discriminant of ElfEndian. -/
def B3e : List Nat := [0x7F, 0x45, 0x4C, 0x46, 1, 0, 1, 0, 0] ++ List.replicate 15 0

/-- The Elf value that `Elf.from_bytes B1` produces. -/
def elfB1 : Elf := { header := hdrB1, program_headers := some [] }

/-- A Class64 little-endian ident. -/
def identW64 : ElfIdent :=
  ⟨ElfClass.Class64, ElfEndian.Little, ElfVersion.Current, ElfOsABI.Unspecified, 0⟩

/-- A 56-byte buffer of 7s, one full Class64 program-header entry. -/
def W56 : List Nat := List.replicate 56 7

/-! The claim theorems. -/

/-- C1: the claim states that whenever the decoded file header has
`program_header_count > 0`, `Elf::from_bytes` decodes exactly
`program_header_count` program-header entries.  On `B1` the header declares
`program_header_count = 1` (and `program_header_size = 0`), yet the parse
succeeds with an empty program-header list, because the loop in
src/lib.rs line 87 runs `for i in 0..header.program_header_size` — the entry
size, not the entry count, bounds the loop. -/
theorem c1_loop_bound_is_size_not_count :
    Elf.from_bytes B1 = Outcome.ok { header := hdrB1, program_headers := some [] } ∧
      hdrB1.program_header_count = 1 ∧ hdrB1.program_header_size = 0 :=
  ⟨by decide, by decide, by decide⟩

/-- C2: the claim states that every successfully parsed image contains and
exposes the decoded section-header sequence.  The Elf struct (src/lib.rs
lines 53-56) holds only the header and the optional program headers, and
`from_bytes` never invokes `SectionHeader::read`: parsing `B1`, whose header
declares `section_header_count = 1`, yields a value that carries no
section-header data at all. -/
theorem c2_no_section_headers_in_parse_result :
    Elf.from_bytes B1 = Outcome.ok { header := hdrB1, program_headers := some [] } ∧
      hdrB1.section_header_count = 1 :=
  ⟨by decide, by decide⟩

/-- C3: the claim states that the identification block is decoded
field-by-field with validated mappings, an out-of-range class byte failing
with InvalidClass and an out-of-range endian byte with InvalidEndian.  The
code instead transmutes the five ident bytes wholesale: on `B3` (class byte
3) the transmute is undefined behaviour, not an `Err(InvalidClass)`, and on
`B3e` (endian byte 0, the `Invalid` tag) decoding panics at the first
multi-byte read instead of returning an InvalidEndian error — indeed the
Error enum has no such variant. -/
theorem c3_ident_transmuted_not_validated :
    Elf.from_bytes B3 = Outcome.ub ∧ Elf.from_bytes B3e = Outcome.abort :=
  ⟨by decide, by decide⟩

/-- C4: the claim states that the magic scan examines every window at start
offsets 0 through length-4 inclusive and returns absent for buffers shorter
than 4 bytes.  The code's loop bound `0..(bytes.len() - 4)` is exclusive, so
the buffer holding exactly the magic is reported as having no magic, and the
`usize` subtraction underflows (panics) on a 3-byte buffer. -/
theorem c4_magic_scan_window_bounds :
    Elf.elf_index [0x7F, 0x45, 0x4C, 0x46] = Outcome.ok none ∧
      Elf.elf_index [0x7F, 0x45, 0x4C] = Outcome.abort :=
  ⟨by decide, by decide⟩

/-- C5: in every successful parse the 16-bit file type is decoded from the
two bytes exactly 16 past the start of the identification block (the block
starts at the magic offset `i`; `FileHeader::read` is entered at `i + 4` and
advances the cursor by 12 before the file-type read, landing at `i + 16`). -/
theorem c5_file_type_sixteen_bytes_after_ident_start (bytes : List Nat)
    (e : Elf) (i : Nat) (hidx : Elf.elf_index bytes = Outcome.ok (some i))
    (hok : Elf.from_bytes bytes = Outcome.ok e) :
    e.header.ty = FileType.fromU16
      (endianVal e.header.ident.endian (window bytes (i + 16) 2)) := by
  obtain ⟨j, hj, hfh⟩ := Elf.from_bytes_ok_inv hok
  rw [hidx] at hj
  injection hj with hj
  injection hj with hj
  subst hj
  have h2 := (FileHeader.read_ok_inv hfh).2
  have h3 : i + 4 + 12 = i + 16 := by omega
  rw [h3] at h2
  exact h2

/-- Witness for C5: on `B1` the magic is at offset 0 and the parsed file type
is decoded from bytes 16 and 17. -/
theorem c5_witness :
    elfB1.header.ty = FileType.fromU16
      (endianVal elfB1.header.ident.endian (window B1 (0 + 16) 2)) :=
  c5_file_type_sixteen_bytes_after_ident_start B1 elfB1 0 (by decide) (by decide)

/-- C6: a class-dependent read fails with InvalidClass (consuming nothing)
when the class is Invalid; for Class32 it consumes exactly 4 bytes and the
produced value is the 4-byte window interpreted in the declared byte order —
a value below 2^32, i.e. the zero-extension to 64 bits; for Class64 it
consumes exactly 8 bytes and uses the 8-byte value directly. -/
theorem c6_read_class_dependent_widths (ident : ElfIdent) (slice : List Nat)
    (off : Nat) :
    (ident.class_ = ElfClass.Invalid →
      read_class_dependent ident slice off = Outcome.err Error.InvalidClass) ∧
    (ident.class_ = ElfClass.Class32 → ident.endian ≠ ElfEndian.Invalid →
      off + 4 ≤ slice.length →
      read_class_dependent ident slice off =
        Outcome.ok (endianVal ident.endian (window slice off 4), off + 4) ∧
      endianVal ident.endian (window slice off 4) < 2 ^ 32) ∧
    (ident.class_ = ElfClass.Class64 → ident.endian ≠ ElfEndian.Invalid →
      off + 8 ≤ slice.length →
      read_class_dependent ident slice off =
        Outcome.ok (endianVal ident.endian (window slice off 8), off + 8)) := by
  refine ⟨fun hc => read_class_dependent_invalid hc,
    fun hc he hb => ⟨read_class_dependent_eval32 hc he hb, ?_⟩,
    fun hc he hb => read_class_dependent_eval64 hc he hb⟩
  have h := endianVal_lt ident.endian (window slice off 4)
  rw [window_length hb] at h
  exact lt_of_lt_of_eq h (by norm_num)

/-- Witness for C6: a Class32 little-endian read of `[1, 2, 3, 4, 5, 6, 7, 8]`
at offset 0. -/
theorem c6_read_class_dependent_widths_witness :
    read_class_dependent
        ⟨ElfClass.Class32, ElfEndian.Little, ElfVersion.Current,
          ElfOsABI.Unspecified, 0⟩ [1, 2, 3, 4, 5, 6, 7, 8] 0 =
      Outcome.ok
        (endianVal ElfEndian.Little (window [1, 2, 3, 4, 5, 6, 7, 8] 0 4), 0 + 4) ∧
    endianVal ElfEndian.Little (window [1, 2, 3, 4, 5, 6, 7, 8] 0 4) < 2 ^ 32 :=
  (c6_read_class_dependent_widths
    ⟨ElfClass.Class32, ElfEndian.Little, ElfVersion.Current,
      ElfOsABI.Unspecified, 0⟩ [1, 2, 3, 4, 5, 6, 7, 8] 0).2.1
    rfl (by decide) (by decide)

/-- C7: the claim states that a multi-byte read with fewer than `width` bytes
remaining fails with an out-of-bounds error rather than aborting, and that an
Invalid byte order fails with an InvalidEndian error.  The literal
`read_with_endian` panics on the short buffer (slice indexing), returns
`None` for the Invalid byte order (every call site unwraps it into a panic;
the Error enum has no InvalidEndian variant), and even an in-bounds read with
a valid byte order panics, because the inclusive slice
`slice[offset..=(offset + size_of::<Self>())]` takes width + 1 bytes and
`to_array`'s `copy_from_slice` rejects the length. -/
theorem c7_read_with_endian_failure_modes :
    read_with_endian 2 [0] ElfEndian.Little 0 = Outcome.abort ∧
      read_with_endian 2 [1, 2, 3, 4] ElfEndian.Invalid 0 = Outcome.ok none ∧
      read_with_endian 2 [1, 2, 3, 4] ElfEndian.Little 0 = Outcome.abort :=
  ⟨by decide, by decide, by decide⟩

/-- C8: in a Class64 program-header entry the 32-bit flags word sits
immediately after the 32-bit segment type (at entry offset 4); in a Class32
entry it sits after the five class-dependent fields offset, virtual address,
physical address, file size and memory size, immediately before the alignment
(at entry offset 24); in both cases the flags field is the raw word —
`from_bits_retain` keeps bits outside Executable/Writable/Readable. -/
theorem c8_program_header_flags_position (ident : ElfIdent) (slice : List Nat)
    (off : Nat) :
    (ident.class_ = ElfClass.Class64 → ident.endian ≠ ElfEndian.Invalid →
      off + 56 ≤ slice.length →
      ∃ ph, ProgramHeader.read ident slice off = Outcome.ok ph ∧
        ph.ty = SegmentType.fromU32 (endianVal ident.endian (window slice off 4)) ∧
        ph.flags = endianVal ident.endian (window slice (off + 4) 4) ∧
        ph.offset = endianVal ident.endian (window slice (off + 8) 8) ∧
        ph.virtual_address = endianVal ident.endian (window slice (off + 16) 8) ∧
        ph.physical_address = endianVal ident.endian (window slice (off + 24) 8) ∧
        ph.file_size = endianVal ident.endian (window slice (off + 32) 8) ∧
        ph.memory_size = endianVal ident.endian (window slice (off + 40) 8) ∧
        ph.alignment = endianVal ident.endian (window slice (off + 48) 8)) ∧
    (ident.class_ = ElfClass.Class32 → ident.endian ≠ ElfEndian.Invalid →
      off + 32 ≤ slice.length →
      ∃ ph, ProgramHeader.read ident slice off = Outcome.ok ph ∧
        ph.ty = SegmentType.fromU32 (endianVal ident.endian (window slice off 4)) ∧
        ph.flags = endianVal ident.endian (window slice (off + 24) 4) ∧
        ph.offset = endianVal ident.endian (window slice (off + 4) 4) ∧
        ph.virtual_address = endianVal ident.endian (window slice (off + 8) 4) ∧
        ph.physical_address = endianVal ident.endian (window slice (off + 12) 4) ∧
        ph.file_size = endianVal ident.endian (window slice (off + 16) 4) ∧
        ph.memory_size = endianVal ident.endian (window slice (off + 20) 4) ∧
        ph.alignment = endianVal ident.endian (window slice (off + 28) 4)) := by
  constructor
  · intro hc he hl
    exact ⟨_, ProgramHeader.read_eval64 hc he hl, rfl, rfl, rfl, rfl, rfl, rfl,
      rfl, rfl⟩
  · intro hc he hl
    exact ⟨_, ProgramHeader.read_eval32 hc he hl, rfl, rfl, rfl, rfl, rfl, rfl,
      rfl, rfl⟩

/-- Witness for C8: a Class64 little-endian entry read out of `W56`. -/
theorem c8_program_header_flags_position_witness :
    ∃ ph, ProgramHeader.read identW64 W56 0 = Outcome.ok ph ∧
      ph.ty = SegmentType.fromU32 (endianVal identW64.endian (window W56 0 4)) ∧
      ph.flags = endianVal identW64.endian (window W56 (0 + 4) 4) ∧
      ph.offset = endianVal identW64.endian (window W56 (0 + 8) 8) ∧
      ph.virtual_address = endianVal identW64.endian (window W56 (0 + 16) 8) ∧
      ph.physical_address = endianVal identW64.endian (window W56 (0 + 24) 8) ∧
      ph.file_size = endianVal identW64.endian (window W56 (0 + 32) 8) ∧
      ph.memory_size = endianVal identW64.endian (window W56 (0 + 40) 8) ∧
      ph.alignment = endianVal identW64.endian (window W56 (0 + 48) 8) :=
  (c8_program_header_flags_position identW64 W56 0).1 rfl (by decide) (by decide)

/-- C9: whenever `FileHeader::read` returns Ok the ident's class is Class32
or Class64 — the entry-address read, the first class-dependent read, returns
`Err(InvalidClass)` otherwise — and consequently every Elf value produced by
`Elf::from_bytes` carries a valid class. -/
theorem c9_ok_header_class_never_invalid :
    (∀ (slice : List Nat) (offset : Nat) (h : FileHeader),
      FileHeader.read slice offset = Outcome.ok h →
        h.ident.class_ ≠ ElfClass.Invalid) ∧
    (∀ (bytes : List Nat) (e : Elf),
      Elf.from_bytes bytes = Outcome.ok e →
        e.header.ident.class_ ≠ ElfClass.Invalid) := by
  constructor
  · intro slice offset h hok
    exact (FileHeader.read_ok_inv hok).1
  · intro bytes e hok
    obtain ⟨i, hidx, hfh⟩ := Elf.from_bytes_ok_inv hok
    exact (FileHeader.read_ok_inv hfh).1

/-- Witness for C9: the header parsed from `B1`. -/
theorem c9_ok_header_class_never_invalid_witness :
    hdrB1.ident.class_ ≠ ElfClass.Invalid :=
  c9_ok_header_class_never_invalid.1 B1 4 hdrB1 (by decide)

/-- C10: `Elf::from_bytes` returns `NotEnoughBytes(r)` exactly when the magic
is located at some offset `i` and the remaining length
`r = bytes.len() - (i + 4)` is below `MIN_ELF_SIZE = size_of::<ElfIdent>()
= 5`; no other call site produces this error, so the 5-byte gate is the sole
length guard of the whole parse. -/
theorem c10_not_enough_bytes_gate (bytes : List Nat) (r : Nat) :
    Elf.from_bytes bytes = Outcome.err (Error.NotEnoughBytes r) ↔
      ∃ i, Elf.elf_index bytes = Outcome.ok (some i) ∧
        bytes.length - (i + 4) < Elf.MIN_ELF_SIZE ∧
        r = bytes.length - (i + 4) := by
  constructor
  · intro h
    rcases Elf.elf_index_cases bytes with hidx | ⟨o, hidx⟩
    · unfold Elf.from_bytes at h
      rw [hidx] at h
      simp [Outcome.bind] at h
    · unfold Elf.from_bytes at h
      rw [hidx, Outcome.ok_bind] at h
      cases o with
      | none => simp at h
      | some i =>
          simp only [] at h
          split at h
          · rename_i hlt
            refine ⟨i, hidx, hlt, ?_⟩
            injection h with h2
            injection h2 with h3
            exact h3.symm
          · exfalso
            have hOIC : OnlyInvalidClass
                (Outcome.bind (FileHeader.read bytes (i + 4)) fun header =>
                  if 0 < header.program_header_count then
                    Outcome.bind
                      (Elf.readProgramHeaders header.ident bytes (i + 4)
                        header.program_header_offset header.program_header_size
                        (List.range header.program_header_size)) fun phs =>
                    Outcome.ok (Elf.mk header (some phs))
                  else Outcome.ok (Elf.mk header none)) :=
              onlyIC_bind fileHeader_read_onlyIC fun header =>
                onlyIC_ite _
                  (onlyIC_bind (Elf.readProgramHeaders_onlyIC _) fun _ =>
                    onlyIC_ok _)
                  (onlyIC_ok _)
            exact Error.noConfusion (hOIC _ h)
  · rintro ⟨i, hidx, hlt, hr⟩
    subst hr
    unfold Elf.from_bytes
    rw [hidx, Outcome.ok_bind]
    show (if bytes.length - (i + 4) < Elf.MIN_ELF_SIZE then
        Outcome.err (Error.NotEnoughBytes (bytes.length - (i + 4)))
      else Outcome.bind (FileHeader.read bytes (i + 4)) fun header =>
        if 0 < header.program_header_count then
          Outcome.bind
            (Elf.readProgramHeaders header.ident bytes (i + 4)
              header.program_header_offset header.program_header_size
              (List.range header.program_header_size)) fun phs =>
          Outcome.ok (Elf.mk header (some phs))
        else Outcome.ok (Elf.mk header none)) =
      Outcome.err (Error.NotEnoughBytes (bytes.length - (i + 4)))
    rw [if_pos hlt]

/-- Witness for C10: an 8-byte buffer starting with the magic leaves 4 bytes
after it, below the 5-byte minimum. -/
theorem c10_not_enough_bytes_gate_witness :
    Elf.from_bytes [0x7F, 0x45, 0x4C, 0x46, 0, 0, 0, 0] =
      Outcome.err (Error.NotEnoughBytes 4) :=
  (c10_not_enough_bytes_gate [0x7F, 0x45, 0x4C, 0x46, 0, 0, 0, 0] 4).mpr
    ⟨0, by decide, by decide, by decide⟩

end Libelf
